import Mathlib

/-!
Shallow embedding of the QHAdam optimizer of this repository: the facade in
include/ensmallen_bits/qhadam/qhadam.hpp together with the QHAdam update rule
and the generic mini-batch SGD driver the facade delegates to.  Scalars are
modelled as rationals; the element-wise square root supplied by the matrix
library is an explicit function parameter of every definition that needs it.
-/

namespace Ens

/-- Modelled from the spec: hyperparameters of the QHAdam update policy
(qhadam_update.hpp, which is not among the sources), in the constructor
order epsilon, beta1, beta2, v1, v2. -/
structure QHAdamUpdate where
  epsilon : ℚ
  beta1 : ℚ
  beta2 : ℚ
  v1 : ℚ
  v2 : ℚ
deriving DecidableEq

/-- Modelled from the spec: mutable state of the QHAdam update policy, the
first and second moment estimates plus the iteration counter t. -/
structure QHAdamState where
  firstMoment : List ℚ
  secondMoment : List ℚ
  t : ℕ
deriving DecidableEq

/-- Modelled from the spec: one step of the QHAdam update rule,
Update(iterate, stepSize, gradient).  Returns the new policy state and the
new iterate.  The argument sq is the element-wise square root of the
underlying matrix library. -/
def qhUpdate (sq : ℚ → ℚ) (p : QHAdamUpdate) (st : QHAdamState)
    (iterate : List ℚ) (stepSize : ℚ) (gradient : List ℚ) :
    QHAdamState × List ℚ :=
  let t := st.t + 1
  let firstMoment :=
    List.zipWith (fun m g => p.beta1 * m + (1 - p.beta1) * g) st.firstMoment gradient
  let secondMoment :=
    List.zipWith (fun v g => p.beta2 * v + (1 - p.beta2) * (g * g)) st.secondMoment gradient
  let mHat := firstMoment.map (fun m => m / (1 - p.beta1 ^ t))
  let vHat := secondMoment.map (fun v => v / (1 - p.beta2 ^ t))
  let numer := List.zipWith (fun g m => (1 - p.v1) * g + p.v1 * m) gradient mHat
  let denom := List.zipWith (fun g v => sq ((1 - p.v2) * (g * g) + p.v2 * v) + p.epsilon) gradient vHat
  let step := List.zipWith (fun a d => stepSize * (a / d)) numer denom
  (⟨firstMoment, secondMoment, t⟩, List.zipWith (fun x d => x - d) iterate step)

/-- The classic Adam update rule, stated from the spec words: bias-corrected
first moment over the square root of the bias-corrected second moment plus
epsilon. -/
def adamUpdate (sq : ℚ → ℚ) (epsilon beta1 beta2 : ℚ) (st : QHAdamState)
    (iterate : List ℚ) (stepSize : ℚ) (gradient : List ℚ) :
    QHAdamState × List ℚ :=
  let t := st.t + 1
  let firstMoment :=
    List.zipWith (fun m g => beta1 * m + (1 - beta1) * g) st.firstMoment gradient
  let secondMoment :=
    List.zipWith (fun v g => beta2 * v + (1 - beta2) * (g * g)) st.secondMoment gradient
  let mHat := firstMoment.map (fun m => m / (1 - beta1 ^ t))
  let vHat := secondMoment.map (fun v => v / (1 - beta2 ^ t))
  let step := List.zipWith (fun m v => stepSize * (m / (sq v + epsilon))) mHat vHat
  (⟨firstMoment, secondMoment, t⟩, List.zipWith (fun x d => x - d) iterate step)

theorem qhUpdate_fst_firstMoment (sq : ℚ → ℚ) (p : QHAdamUpdate) (st : QHAdamState)
    (iterate : List ℚ) (stepSize : ℚ) (gradient : List ℚ) :
    (qhUpdate sq p st iterate stepSize gradient).1.firstMoment =
      List.zipWith (fun m g => p.beta1 * m + (1 - p.beta1) * g) st.firstMoment gradient := rfl

theorem qhUpdate_fst_secondMoment (sq : ℚ → ℚ) (p : QHAdamUpdate) (st : QHAdamState)
    (iterate : List ℚ) (stepSize : ℚ) (gradient : List ℚ) :
    (qhUpdate sq p st iterate stepSize gradient).1.secondMoment =
      List.zipWith (fun v g => p.beta2 * v + (1 - p.beta2) * (g * g)) st.secondMoment gradient := rfl

theorem qhUpdate_fst_t (sq : ℚ → ℚ) (p : QHAdamUpdate) (st : QHAdamState)
    (iterate : List ℚ) (stepSize : ℚ) (gradient : List ℚ) :
    (qhUpdate sq p st iterate stepSize gradient).1.t = st.t + 1 := rfl

theorem getD_zipWith (f : ℚ → ℚ → ℚ) (l1 l2 : List ℚ) (i : ℕ)
    (h1 : i < l1.length) (h2 : i < l2.length) :
    (List.zipWith f l1 l2).getD i 0 = f (l1.getD i 0) (l2.getD i 0) := by
  induction l1 generalizing l2 i with
  | nil => simp at h1
  | cons a l ih =>
    cases l2 with
    | nil => simp at h2
    | cons b l2 =>
      cases i with
      | zero => simp
      | succ j =>
        simp only [List.zipWith_cons_cons, List.getD_cons_succ]
        exact ih l2 j (by simpa using h1) (by simpa using h2)

theorem getD_map (f : ℚ → ℚ) (l : List ℚ) (i : ℕ) (h : i < l.length) :
    (l.map f).getD i 0 = f (l.getD i 0) := by
  induction l generalizing i with
  | nil => simp at h
  | cons a l ih =>
    cases i with
    | zero => simp
    | succ j =>
      simp only [List.map_cons, List.getD_cons_succ]
      exact ih j (by simpa using h)

theorem qhUpdate_snd_getElem (sq : ℚ → ℚ) (p : QHAdamUpdate) (st : QHAdamState)
    (iterate : List ℚ) (stepSize : ℚ) (gradient : List ℚ) (n : ℕ)
    (hm : st.firstMoment.length = n) (hv : st.secondMoment.length = n)
    (hit : iterate.length = n) (hg : gradient.length = n)
    (i : ℕ) (hi : i < n) :
    (qhUpdate sq p st iterate stepSize gradient).2.getD i 0 =
      iterate.getD i 0 - stepSize *
        (((1 - p.v1) * gradient.getD i 0 +
            p.v1 * ((p.beta1 * st.firstMoment.getD i 0 +
                (1 - p.beta1) * gradient.getD i 0) / (1 - p.beta1 ^ (st.t + 1)))) /
          (sq ((1 - p.v2) * (gradient.getD i 0 * gradient.getD i 0) +
              p.v2 * ((p.beta2 * st.secondMoment.getD i 0 +
                  (1 - p.beta2) * (gradient.getD i 0 * gradient.getD i 0)) /
                (1 - p.beta2 ^ (st.t + 1)))) + p.epsilon)) := by
  simp only [qhUpdate]
  simp [getD_zipWith, getD_map, hm, hv, hit, hg, hi]

/-- Claim C1: an Update(iterate, stepSize, gradient) call first increments t,
updates the first and second moments as exponential moving averages of the
gradient and its square, forms the bias-corrected estimates
mHat = firstMoment / (1 - beta1^t) and vHat = secondMoment / (1 - beta2^t),
and replaces the iterate by
iterate - stepSize * ((1 - v1) * g + v1 * mHat) /
(sqrt((1 - v2) * g^2 + v2 * vHat) + epsilon), element-wise. -/
theorem c1_update_step (sq : ℚ → ℚ) (p : QHAdamUpdate) (st : QHAdamState)
    (iterate : List ℚ) (stepSize : ℚ) (gradient : List ℚ) (n : ℕ)
    (hm : st.firstMoment.length = n) (hv : st.secondMoment.length = n)
    (hit : iterate.length = n) (hg : gradient.length = n)
    (i : ℕ) (hi : i < n) :
    (qhUpdate sq p st iterate stepSize gradient).1.t = st.t + 1 ∧
    (qhUpdate sq p st iterate stepSize gradient).1.firstMoment.getD i 0 =
      p.beta1 * st.firstMoment.getD i 0 + (1 - p.beta1) * gradient.getD i 0 ∧
    (qhUpdate sq p st iterate stepSize gradient).1.secondMoment.getD i 0 =
      p.beta2 * st.secondMoment.getD i 0 +
        (1 - p.beta2) * (gradient.getD i 0 * gradient.getD i 0) ∧
    (qhUpdate sq p st iterate stepSize gradient).2.getD i 0 =
      iterate.getD i 0 - stepSize *
        (((1 - p.v1) * gradient.getD i 0 +
            p.v1 * ((qhUpdate sq p st iterate stepSize gradient).1.firstMoment.getD i 0 /
              (1 - p.beta1 ^ (st.t + 1)))) /
          (sq ((1 - p.v2) * (gradient.getD i 0 * gradient.getD i 0) +
              p.v2 * ((qhUpdate sq p st iterate stepSize gradient).1.secondMoment.getD i 0 /
                (1 - p.beta2 ^ (st.t + 1)))) + p.epsilon)) := by
  have h1 : (qhUpdate sq p st iterate stepSize gradient).1.firstMoment.getD i 0 =
      p.beta1 * st.firstMoment.getD i 0 + (1 - p.beta1) * gradient.getD i 0 := by
    rw [qhUpdate_fst_firstMoment]
    exact getD_zipWith _ _ _ _ (by omega) (by omega)
  have h2 : (qhUpdate sq p st iterate stepSize gradient).1.secondMoment.getD i 0 =
      p.beta2 * st.secondMoment.getD i 0 +
        (1 - p.beta2) * (gradient.getD i 0 * gradient.getD i 0) := by
    rw [qhUpdate_fst_secondMoment]
    exact getD_zipWith _ _ _ _ (by omega) (by omega)
  refine ⟨rfl, h1, h2, ?_⟩
  rw [h1, h2, qhUpdate_snd_getElem sq p st iterate stepSize gradient n hm hv hit hg i hi]

/-- Witness for C1 at a concrete input. -/
theorem c1_update_step_witness :
    ((⟨[2], [3], 5⟩ : QHAdamState).firstMoment.length = 1 ∧
     (⟨[2], [3], 5⟩ : QHAdamState).secondMoment.length = 1 ∧
     [10].length = 1 ∧ [4].length = 1 ∧ 0 < 1) ∧
    ((qhUpdate id ⟨1/100, 1/2, 1/3, 1/4, 1/5⟩ ⟨[2], [3], 5⟩ [(10 : ℚ)] 1 [4]).1.t = 5 + 1 ∧
     (qhUpdate id ⟨1/100, 1/2, 1/3, 1/4, 1/5⟩ ⟨[2], [3], 5⟩ [(10 : ℚ)] 1 [4]).1.firstMoment.getD 0 0 =
       1/2 * ((⟨[2], [3], 5⟩ : QHAdamState).firstMoment.getD 0 0) +
         (1 - 1/2) * (([(4 : ℚ)]).getD 0 0) ∧
     (qhUpdate id ⟨1/100, 1/2, 1/3, 1/4, 1/5⟩ ⟨[2], [3], 5⟩ [(10 : ℚ)] 1 [4]).1.secondMoment.getD 0 0 =
       1/3 * ((⟨[2], [3], 5⟩ : QHAdamState).secondMoment.getD 0 0) +
         (1 - 1/3) * (([(4 : ℚ)]).getD 0 0 * ([(4 : ℚ)]).getD 0 0) ∧
     (qhUpdate id ⟨1/100, 1/2, 1/3, 1/4, 1/5⟩ ⟨[2], [3], 5⟩ [(10 : ℚ)] 1 [4]).2.getD 0 0 =
       ([(10 : ℚ)]).getD 0 0 - 1 *
         (((1 - 1/4) * ([(4 : ℚ)]).getD 0 0 +
             1/4 * ((qhUpdate id ⟨1/100, 1/2, 1/3, 1/4, 1/5⟩ ⟨[2], [3], 5⟩ [(10 : ℚ)] 1 [4]).1.firstMoment.getD 0 0 /
               (1 - (1/2 : ℚ) ^ (5 + 1)))) /
           (id ((1 - 1/5) * (([(4 : ℚ)]).getD 0 0 * ([(4 : ℚ)]).getD 0 0) +
               1/5 * ((qhUpdate id ⟨1/100, 1/2, 1/3, 1/4, 1/5⟩ ⟨[2], [3], 5⟩ [(10 : ℚ)] 1 [4]).1.secondMoment.getD 0 0 /
                 (1 - (1/3 : ℚ) ^ (5 + 1)))) + 1/100))) :=
  ⟨⟨rfl, rfl, rfl, rfl, by decide⟩,
   c1_update_step id ⟨1/100, 1/2, 1/3, 1/4, 1/5⟩ ⟨[2], [3], 5⟩ [10] 1 [4] 1
     rfl rfl rfl rfl 0 (by decide)⟩

theorem adamUpdate_snd_getD (sq : ℚ → ℚ) (epsilon beta1 beta2 : ℚ) (st : QHAdamState)
    (iterate : List ℚ) (stepSize : ℚ) (gradient : List ℚ) (n : ℕ)
    (hm : st.firstMoment.length = n) (hv : st.secondMoment.length = n)
    (hit : iterate.length = n) (hg : gradient.length = n)
    (i : ℕ) (hi : i < n) :
    (adamUpdate sq epsilon beta1 beta2 st iterate stepSize gradient).2.getD i 0 =
      iterate.getD i 0 - stepSize *
        (((beta1 * st.firstMoment.getD i 0 + (1 - beta1) * gradient.getD i 0) /
            (1 - beta1 ^ (st.t + 1))) /
          (sq ((beta2 * st.secondMoment.getD i 0 +
              (1 - beta2) * (gradient.getD i 0 * gradient.getD i 0)) /
                (1 - beta2 ^ (st.t + 1))) + epsilon)) := by
  simp only [adamUpdate]
  simp [getD_zipWith, getD_map, hm, hv, hit, hg, hi]

theorem qhUpdate_snd_length (sq : ℚ → ℚ) (p : QHAdamUpdate) (st : QHAdamState)
    (iterate : List ℚ) (stepSize : ℚ) (gradient : List ℚ) (n : ℕ)
    (hm : st.firstMoment.length = n) (hv : st.secondMoment.length = n)
    (hit : iterate.length = n) (hg : gradient.length = n) :
    (qhUpdate sq p st iterate stepSize gradient).2.length = n := by
  simp [qhUpdate, List.length_zipWith, hm, hv, hit, hg]

theorem adamUpdate_snd_length (sq : ℚ → ℚ) (epsilon beta1 beta2 : ℚ) (st : QHAdamState)
    (iterate : List ℚ) (stepSize : ℚ) (gradient : List ℚ) (n : ℕ)
    (hm : st.firstMoment.length = n) (hv : st.secondMoment.length = n)
    (hit : iterate.length = n) (hg : gradient.length = n) :
    (adamUpdate sq epsilon beta1 beta2 st iterate stepSize gradient).2.length = n := by
  simp [adamUpdate, List.length_zipWith, hm, hv, hit, hg]

/-- Claim C4: with v1 = 1 and v2 = 1 a QHAdam update step produces exactly the
same new iterate and moment state as the classic Adam update with the same
stepSize, beta1, beta2 and epsilon.  Stated per step with an arbitrary moment
state, which covers every deterministic sequence of gradients. -/
theorem c4_adam_equivalence (sq : ℚ → ℚ) (p : QHAdamUpdate) (st : QHAdamState)
    (iterate : List ℚ) (stepSize : ℚ) (gradient : List ℚ) (n : ℕ)
    (hm : st.firstMoment.length = n) (hv : st.secondMoment.length = n)
    (hit : iterate.length = n) (hg : gradient.length = n)
    (hv1 : p.v1 = 1) (hv2 : p.v2 = 1) :
    qhUpdate sq p st iterate stepSize gradient =
      adamUpdate sq p.epsilon p.beta1 p.beta2 st iterate stepSize gradient := by
  refine Prod.ext rfl (List.ext_getElem ?_ ?_)
  · rw [qhUpdate_snd_length sq p st iterate stepSize gradient n hm hv hit hg,
        adamUpdate_snd_length sq p.epsilon p.beta1 p.beta2 st iterate stepSize gradient n
          hm hv hit hg]
  · intro i h1 h2
    have hi : i < n := by
      rw [qhUpdate_snd_length sq p st iterate stepSize gradient n hm hv hit hg] at h1
      exact h1
    rw [← List.getD_eq_getElem _ 0 h1, ← List.getD_eq_getElem _ 0 h2,
        qhUpdate_snd_getElem sq p st iterate stepSize gradient n hm hv hit hg i hi,
        adamUpdate_snd_getD sq p.epsilon p.beta1 p.beta2 st iterate stepSize gradient n
          hm hv hit hg i hi, hv1, hv2]
    ring_nf

/-- Witness for C4 at a concrete input. -/
theorem c4_adam_equivalence_witness :
    ((⟨[2], [3], 0⟩ : QHAdamState).firstMoment.length = 1 ∧
     (⟨[2], [3], 0⟩ : QHAdamState).secondMoment.length = 1 ∧
     [(5 : ℚ)].length = 1 ∧ [(4 : ℚ)].length = 1 ∧
     (⟨1/100, 1/2, 1/3, 1, 1⟩ : QHAdamUpdate).v1 = 1 ∧
     (⟨1/100, 1/2, 1/3, 1, 1⟩ : QHAdamUpdate).v2 = 1) ∧
    qhUpdate id ⟨1/100, 1/2, 1/3, 1, 1⟩ ⟨[2], [3], 0⟩ [(5 : ℚ)] 1 [4] =
      adamUpdate id (1/100) (1/2) (1/3) ⟨[2], [3], 0⟩ [(5 : ℚ)] 1 [4] :=
  ⟨⟨rfl, rfl, rfl, rfl, rfl, rfl⟩,
   c4_adam_equivalence id ⟨1/100, 1/2, 1/3, 1, 1⟩ ⟨[2], [3], 0⟩ [5] 1 [4] 1
     rfl rfl rfl rfl rfl rfl⟩

/-- Claim C5: with v1 = 0 and v2 = 0 the QHAdam update degenerates to plain
gradient descent, iterate - stepSize * gradient / (|gradient| + epsilon)
element-wise; the moment estimates have no effect on the new iterate.  The
hypothesis on sq records that the matrix library square root satisfies
sqrt(x^2) = |x| on the gradient entries. -/
theorem c5_sgd_degeneration (sq : ℚ → ℚ) (p : QHAdamUpdate) (st : QHAdamState)
    (iterate : List ℚ) (stepSize : ℚ) (gradient : List ℚ) (n : ℕ)
    (hm : st.firstMoment.length = n) (hv : st.secondMoment.length = n)
    (hit : iterate.length = n) (hg : gradient.length = n)
    (hv1 : p.v1 = 0) (hv2 : p.v2 = 0)
    (hsq : ∀ x ∈ gradient, sq (x * x) = |x|) :
    (qhUpdate sq p st iterate stepSize gradient).2 =
      List.zipWith (fun x g => x - stepSize * (g / (|g| + p.epsilon))) iterate gradient := by
  refine List.ext_getElem ?_ ?_
  · rw [qhUpdate_snd_length sq p st iterate stepSize gradient n hm hv hit hg]
    simp [List.length_zipWith, hit, hg]
  · intro i h1 h2
    have hi : i < n := by
      rw [qhUpdate_snd_length sq p st iterate stepSize gradient n hm hv hit hg] at h1
      exact h1
    have hmem : gradient.getD i 0 ∈ gradient := by
      rw [List.getD_eq_getElem _ 0 (by omega)]
      exact List.getElem_mem (by omega)
    rw [← List.getD_eq_getElem _ 0 h1, ← List.getD_eq_getElem _ 0 h2,
        qhUpdate_snd_getElem sq p st iterate stepSize gradient n hm hv hit hg i hi,
        getD_zipWith _ _ _ _ (by omega) (by omega), hv1, hv2]
    rw [show ((1 : ℚ) - 0) * (gradient.getD i 0 * gradient.getD i 0) +
          0 * ((p.beta2 * st.secondMoment.getD i 0 +
            (1 - p.beta2) * (gradient.getD i 0 * gradient.getD i 0)) /
              (1 - p.beta2 ^ (st.t + 1))) =
          gradient.getD i 0 * gradient.getD i 0 by ring,
        hsq _ hmem]
    ring_nf

/-- Witness for C5 at a concrete input: gradient [3, -4], with a concrete
square-root function that is exact on 9 and 16. -/
theorem c5_sgd_degeneration_witness :
    ((⟨[2, 2], [3, 3], 0⟩ : QHAdamState).firstMoment.length = 2 ∧
     (⟨[2, 2], [3, 3], 0⟩ : QHAdamState).secondMoment.length = 2 ∧
     [(5 : ℚ), 6].length = 2 ∧ [(3 : ℚ), -4].length = 2 ∧
     (⟨1/100, 1/2, 1/3, 0, 0⟩ : QHAdamUpdate).v1 = 0 ∧
     (⟨1/100, 1/2, 1/3, 0, 0⟩ : QHAdamUpdate).v2 = 0 ∧
     (∀ x ∈ [(3 : ℚ), -4],
        (fun y => if y = (9 : ℚ) then (3 : ℚ) else if y = 16 then 4 else 0) (x * x) = |x|)) ∧
    (qhUpdate (fun y => if y = (9 : ℚ) then (3 : ℚ) else if y = 16 then 4 else 0)
        ⟨1/100, 1/2, 1/3, 0, 0⟩ ⟨[2, 2], [3, 3], 0⟩ [(5 : ℚ), 6] 1 [3, -4]).2 =
      List.zipWith (fun x g => x - 1 * (g / (|g| + (1/100 : ℚ)))) [(5 : ℚ), 6] [3, -4] := by
  have hsq : ∀ x ∈ [(3 : ℚ), -4],
      (fun y => if y = (9 : ℚ) then (3 : ℚ) else if y = 16 then 4 else 0) (x * x) = |x| := by
    intro x hx
    rcases List.mem_cons.mp hx with h | hx2
    · subst h; norm_num
    · rcases List.mem_cons.mp hx2 with h | h
      · subst h; norm_num
      · simp at h
  exact ⟨⟨rfl, rfl, rfl, rfl, rfl, rfl, hsq⟩,
    c5_sgd_degeneration (fun y => if y = (9 : ℚ) then (3 : ℚ) else if y = 16 then 4 else 0)
      ⟨1/100, 1/2, 1/3, 0, 0⟩ ⟨[2, 2], [3, 3], 0⟩ [5, 6] 1 [3, -4] 2
      rfl rfl rfl rfl rfl rfl hsq⟩

/-- Modelled from the spec: the decomposable objective interface seen by the
driver, with size(), evaluate(iterate, startIndex, batchSize) and
gradient(iterate, startIndex, batchSize); either call may fail. -/
structure Objective where
  numFunctions : ℕ
  evaluate : List ℚ → ℕ → ℕ → Except String ℚ
  gradient : List ℚ → ℕ → ℕ → Except String (List ℚ)

/-- Modelled from the spec: hyperparameters of the generic SGD driver the
QHAdam facade owns, together with the hyperparameters of its update policy. -/
structure SGDDriver where
  stepSize : ℚ
  batchSize : ℕ
  maxIterations : ℕ
  tolerance : ℚ
  shuffle : Bool
  resetPolicy : Bool
  updatePolicy : QHAdamUpdate
deriving DecidableEq

/-- Helper for batchSizes, structurally recursive on a fuel argument that
bounds the number of remaining points. -/
def batchSizesAux (b : ℕ) : ℕ → ℕ → List ℕ
  | 0, _ => []
  | fuel + 1, n =>
    if n = 0 then []
    else if n ≤ b then [n]
    else b :: batchSizesAux b fuel (n - b)

/-- Modelled from the spec: the sizes of the batches of one full pass over a
dataset of n points with the given batch size; the last batch of a pass that
the batch size does not divide is short, processed and not padded. -/
def batchSizes (b n : ℕ) : List ℕ :=
  if b = 0 then [] else batchSizesAux b n n

/-- Turns a list of batch sizes into (startIndex, size) pairs with
consecutive start indices beginning at s. -/
def chunks (s : ℕ) : List ℕ → List (ℕ × ℕ)
  | [] => []
  | sz :: rest => (s, sz) :: chunks (s + sz) rest

/-- Modelled from the spec: the (startIndex, size) batches of one full pass. -/
def passBatches (n b : ℕ) : List (ℕ × ℕ) :=
  chunks 0 (batchSizes b n)

/-- The data indices visited by one full pass, in order. -/
def coveredIndices (n b : ℕ) : List ℕ :=
  (passBatches n b).flatMap (fun p => List.range' p.1 p.2)

/-- Modelled from the spec: the loop stops for the iteration limit exactly
when maxIterations is nonzero and that many data points have been processed;
a maxIterations of 0 means no limit. -/
def limitHit (maxIterations points : ℕ) : Bool :=
  if maxIterations = 0 then false
  else if maxIterations ≤ points then true
  else false

/-- Reason the driver loop stopped. -/
inductive StopReason where
  | converged
  | limitReached
  | fuelExhausted
  | failed (e : String)
deriving DecidableEq

/-- State threaded through the driver loop: current iterate, update-policy
state, number of individual data points processed so far, and the objective
value used for the convergence comparison. -/
structure RunState where
  iterate : List ℚ
  policy : QHAdamState
  points : ℕ
  lastObjective : ℚ
deriving DecidableEq

/-- Modelled from the spec: the inner loop of one pass.  Before each batch the
iteration limit is checked; the gradient over the batch is requested from the
objective (an error aborts the run at once, keeping the current state); the
update policy is applied; the processed-point counter advances by the batch
size. -/
def runBatches (sq : ℚ → ℚ) (cfg : SGDDriver) (f : Objective) :
    List (ℕ × ℕ) → RunState → RunState × Option StopReason
  | [], st => (st, none)
  | b :: bs, st =>
    if limitHit cfg.maxIterations st.points then (st, some StopReason.limitReached)
    else
      match f.gradient st.iterate b.1 b.2 with
      | Except.error e => (st, some (StopReason.failed e))
      | Except.ok grad =>
        let r := qhUpdate sq cfg.updatePolicy st.policy st.iterate cfg.stepSize grad
        runBatches sq cfg f bs ⟨r.2, r.1, st.points + b.2, st.lastObjective⟩

/-- Modelled from the spec: the outer loop over passes.  At the start of a
pass, if shuffle is set, the visitation order is regenerated (modelled by an
external shuffler acting on the objective); after a pass the objective is
evaluated and an absolute change below tolerance stops the run as converged.
Fuel bounds the number of passes the model simulates. -/
def runPasses (sq : ℚ → ℚ) (shuffler : ℕ → Objective → Objective) (cfg : SGDDriver) :
    ℕ → Objective → RunState → RunState × StopReason
  | 0, _, st => (st, StopReason.fuelExhausted)
  | fuel + 1, f, st =>
    let g := if cfg.shuffle then shuffler fuel f else f
    match runBatches sq cfg g (passBatches g.numFunctions cfg.batchSize) st with
    | (st1, some r) => (st1, r)
    | (st1, none) =>
      match g.evaluate st1.iterate 0 g.numFunctions with
      | Except.error e => (st1, StopReason.failed e)
      | Except.ok v =>
        if |v - st1.lastObjective| < cfg.tolerance then
          ({ st1 with lastObjective := v }, StopReason.converged)
        else runPasses sq shuffler cfg fuel g { st1 with lastObjective := v }

/-- Modelled from the spec: the zeroed update-policy state used by reset. -/
def initialPolicy (dim : ℕ) : QHAdamState :=
  ⟨List.replicate dim 0, List.replicate dim 0, 0⟩

/-- Modelled from the spec: the driver entry point.  If resetPolicy is set the
update-policy state is reset first; the objective is evaluated once to seed
the convergence comparison, then the pass loop runs. -/
def SGDOptimize (sq : ℚ → ℚ) (shuffler : ℕ → Objective → Objective) (cfg : SGDDriver)
    (f : Objective) (iterate : List ℚ) (policy : QHAdamState) (fuel : ℕ) :
    RunState × StopReason :=
  let p0 := if cfg.resetPolicy then initialPolicy iterate.length else policy
  match f.evaluate iterate 0 f.numFunctions with
  | Except.error e => (⟨iterate, p0, 0, 0⟩, StopReason.failed e)
  | Except.ok v0 => runPasses sq shuffler cfg fuel f ⟨iterate, p0, 0, v0⟩

/-- The QHAdam facade: one private SGD driver instance with the QHAdam update
policy, matching the single data member of class QHAdam. -/
structure QHAdam where
  optimizer : SGDDriver
deriving DecidableEq

/-- The facade built by the zero-argument constructor, with the default
hyperparameters of the constructor declaration. -/
def QHAdamDefault : QHAdam :=
  ⟨⟨1/1000, 32, 100000, 1/100000, true, true, ⟨1/100000000, 9/10, 999/1000, 7/10, 1⟩⟩⟩

def QHAdam.StepSize (q : QHAdam) : ℚ := q.optimizer.stepSize

def QHAdam.BatchSize (q : QHAdam) : ℕ := q.optimizer.batchSize

def QHAdam.Beta1 (q : QHAdam) : ℚ := q.optimizer.updatePolicy.beta1

def QHAdam.Beta2 (q : QHAdam) : ℚ := q.optimizer.updatePolicy.beta2

def QHAdam.Epsilon (q : QHAdam) : ℚ := q.optimizer.updatePolicy.epsilon

def QHAdam.MaxIterations (q : QHAdam) : ℕ := q.optimizer.maxIterations

def QHAdam.Tolerance (q : QHAdam) : ℚ := q.optimizer.tolerance

def QHAdam.Shuffle (q : QHAdam) : Bool := q.optimizer.shuffle

def QHAdam.ResetPolicy (q : QHAdam) : Bool := q.optimizer.resetPolicy

def QHAdam.V1 (q : QHAdam) : ℚ := q.optimizer.updatePolicy.v1

def QHAdam.V2 (q : QHAdam) : ℚ := q.optimizer.updatePolicy.v2

def QHAdam.SetStepSize (q : QHAdam) (x : ℚ) : QHAdam :=
  ⟨{ q.optimizer with stepSize := x }⟩

def QHAdam.SetBatchSize (q : QHAdam) (x : ℕ) : QHAdam :=
  ⟨{ q.optimizer with batchSize := x }⟩

def QHAdam.SetBeta1 (q : QHAdam) (x : ℚ) : QHAdam :=
  ⟨{ q.optimizer with updatePolicy := { q.optimizer.updatePolicy with beta1 := x } }⟩

def QHAdam.SetBeta2 (q : QHAdam) (x : ℚ) : QHAdam :=
  ⟨{ q.optimizer with updatePolicy := { q.optimizer.updatePolicy with beta2 := x } }⟩

def QHAdam.SetEpsilon (q : QHAdam) (x : ℚ) : QHAdam :=
  ⟨{ q.optimizer with updatePolicy := { q.optimizer.updatePolicy with epsilon := x } }⟩

def QHAdam.SetMaxIterations (q : QHAdam) (x : ℕ) : QHAdam :=
  ⟨{ q.optimizer with maxIterations := x }⟩

def QHAdam.SetTolerance (q : QHAdam) (x : ℚ) : QHAdam :=
  ⟨{ q.optimizer with tolerance := x }⟩

def QHAdam.SetShuffle (q : QHAdam) (x : Bool) : QHAdam :=
  ⟨{ q.optimizer with shuffle := x }⟩

def QHAdam.SetResetPolicy (q : QHAdam) (x : Bool) : QHAdam :=
  ⟨{ q.optimizer with resetPolicy := x }⟩

def QHAdam.SetV1 (q : QHAdam) (x : ℚ) : QHAdam :=
  ⟨{ q.optimizer with updatePolicy := { q.optimizer.updatePolicy with v1 := x } }⟩

def QHAdam.SetV2 (q : QHAdam) (x : ℚ) : QHAdam :=
  ⟨{ q.optimizer with updatePolicy := { q.optimizer.updatePolicy with v2 := x } }⟩

/-- The facade Optimize: the body of QHAdam::Optimize is a single delegation
to the owned driver. -/
def QHAdam.Optimize (sq : ℚ → ℚ) (shuffler : ℕ → Objective → Objective) (q : QHAdam)
    (f : Objective) (iterate : List ℚ) (policy : QHAdamState) (fuel : ℕ) :
    RunState × StopReason :=
  SGDOptimize sq shuffler q.optimizer f iterate policy fuel

/-- Claim C2: the facade constructed with no arguments has exactly the default
hyperparameters stepSize = 0.001, batchSize = 32, v1 = 0.7, v2 = 1.0,
beta1 = 0.9, beta2 = 0.999, epsilon = 1e-8, maxIterations = 100000,
tolerance = 1e-5, shuffle = true, resetPolicy = true, and each getter returns
the corresponding default. -/
theorem c2_defaults :
    QHAdamDefault.StepSize = 1/1000 ∧
    QHAdamDefault.BatchSize = 32 ∧
    QHAdamDefault.V1 = 7/10 ∧
    QHAdamDefault.V2 = 1 ∧
    QHAdamDefault.Beta1 = 9/10 ∧
    QHAdamDefault.Beta2 = 999/1000 ∧
    QHAdamDefault.Epsilon = 1/100000000 ∧
    QHAdamDefault.MaxIterations = 100000 ∧
    QHAdamDefault.Tolerance = 1/100000 ∧
    QHAdamDefault.Shuffle = true ∧
    QHAdamDefault.ResetPolicy = true :=
  ⟨rfl, rfl, rfl, rfl, rfl, rfl, rfl, rfl, rfl, rfl, rfl⟩

/-- Claim C3: every facade operation is pure delegation.  Optimize returns
exactly the value of the inner driver's Optimize on the same arguments, each
getter returns the value held by the underlying driver or update policy, and
each setter writes that underlying value directly. -/
theorem c3_pure_delegation :
    (∀ (sq : ℚ → ℚ) (shuffler : ℕ → Objective → Objective) (q : QHAdam) (f : Objective)
        (iterate : List ℚ) (policy : QHAdamState) (fuel : ℕ),
      QHAdam.Optimize sq shuffler q f iterate policy fuel =
        SGDOptimize sq shuffler q.optimizer f iterate policy fuel) ∧
    (∀ q : QHAdam,
      q.StepSize = q.optimizer.stepSize ∧
      q.BatchSize = q.optimizer.batchSize ∧
      q.V1 = q.optimizer.updatePolicy.v1 ∧
      q.V2 = q.optimizer.updatePolicy.v2 ∧
      q.Beta1 = q.optimizer.updatePolicy.beta1 ∧
      q.Beta2 = q.optimizer.updatePolicy.beta2 ∧
      q.Epsilon = q.optimizer.updatePolicy.epsilon ∧
      q.MaxIterations = q.optimizer.maxIterations ∧
      q.Tolerance = q.optimizer.tolerance ∧
      q.Shuffle = q.optimizer.shuffle ∧
      q.ResetPolicy = q.optimizer.resetPolicy) ∧
    (∀ (q : QHAdam) (x : ℚ), (q.SetStepSize x).optimizer.stepSize = x) ∧
    (∀ (q : QHAdam) (x : ℕ), (q.SetBatchSize x).optimizer.batchSize = x) ∧
    (∀ (q : QHAdam) (x : ℚ), (q.SetV1 x).optimizer.updatePolicy.v1 = x) ∧
    (∀ (q : QHAdam) (x : ℚ), (q.SetV2 x).optimizer.updatePolicy.v2 = x) ∧
    (∀ (q : QHAdam) (x : ℚ), (q.SetBeta1 x).optimizer.updatePolicy.beta1 = x) ∧
    (∀ (q : QHAdam) (x : ℚ), (q.SetBeta2 x).optimizer.updatePolicy.beta2 = x) ∧
    (∀ (q : QHAdam) (x : ℚ), (q.SetEpsilon x).optimizer.updatePolicy.epsilon = x) ∧
    (∀ (q : QHAdam) (x : ℕ), (q.SetMaxIterations x).optimizer.maxIterations = x) ∧
    (∀ (q : QHAdam) (x : ℚ), (q.SetTolerance x).optimizer.tolerance = x) ∧
    (∀ (q : QHAdam) (x : Bool), (q.SetShuffle x).optimizer.shuffle = x) ∧
    (∀ (q : QHAdam) (x : Bool), (q.SetResetPolicy x).optimizer.resetPolicy = x) :=
  ⟨fun _ _ _ _ _ _ _ => rfl,
   fun _ => ⟨rfl, rfl, rfl, rfl, rfl, rfl, rfl, rfl, rfl, rfl, rfl⟩,
   fun _ _ => rfl, fun _ _ => rfl, fun _ _ => rfl, fun _ _ => rfl, fun _ _ => rfl,
   fun _ _ => rfl, fun _ _ => rfl, fun _ _ => rfl, fun _ _ => rfl, fun _ _ => rfl,
   fun _ _ => rfl⟩

theorem batchSizesAux_sum (b : ℕ) (hb : 0 < b) :
    ∀ fuel n, n ≤ fuel → (batchSizesAux b fuel n).sum = n := by
  intro fuel
  induction fuel with
  | zero => intro n hn; interval_cases n; rfl
  | succ fuel ih =>
    intro n hn
    rw [batchSizesAux]
    split_ifs with h1 h2
    · simp [h1]
    · simp
    · have : (batchSizesAux b fuel (n - b)).sum = n - b := ih (n - b) (by omega)
      simp [this]
      omega

theorem batchSizes_sum (b : ℕ) (hb : 0 < b) (n : ℕ) : (batchSizes b n).sum = n := by
  rw [batchSizes, if_neg (by omega)]
  exact batchSizesAux_sum b hb n n le_rfl

theorem batchSizesAux_length (b : ℕ) (hb : 0 < b) :
    ∀ fuel n, n ≤ fuel → (batchSizesAux b fuel n).length = (n + b - 1) / b := by
  intro fuel
  induction fuel with
  | zero =>
    intro n hn
    interval_cases n
    simp [batchSizesAux, Nat.div_eq_of_lt (show b - 1 < b by omega)]
  | succ fuel ih =>
    intro n hn
    rw [batchSizesAux]
    split_ifs with h1 h2
    · subst h1
      simp [Nat.div_eq_of_lt (show b - 1 < b by omega)]
    · rw [show n + b - 1 = (n - 1) + b by omega, Nat.add_div_right _ hb,
          Nat.div_eq_of_lt (show n - 1 < b by omega)]
      simp
    · have hrec : (batchSizesAux b fuel (n - b)).length = (n - b + b - 1) / b :=
        ih (n - b) (by omega)
      rw [List.length_cons, hrec, show n + b - 1 = (n - b + b - 1) + b by omega,
          Nat.add_div_right _ hb]

theorem batchSizes_length (b : ℕ) (hb : 0 < b) (n : ℕ) :
    (batchSizes b n).length = (n + b - 1) / b := by
  rw [batchSizes, if_neg (by omega)]
  exact batchSizesAux_length b hb n n le_rfl

theorem getLast?_cons_of_some {α : Type} (a x : α) (l : List α) (h : l.getLast? = some x) :
    (a :: l).getLast? = some x := by
  cases l with
  | nil => simp at h
  | cons b bs => rw [List.getLast?_cons_cons]; exact h

theorem batchSizesAux_getLast (b : ℕ) (hb : 0 < b) :
    ∀ fuel n, n ≤ fuel → ¬ b ∣ n → (batchSizesAux b fuel n).getLast? = some (n % b) := by
  intro fuel
  induction fuel with
  | zero =>
    intro n hn hnd
    interval_cases n
    exact absurd (dvd_zero b) hnd
  | succ fuel ih =>
    intro n hn hnd
    rw [batchSizesAux]
    split_ifs with h1 h2
    · exact absurd (h1 ▸ dvd_zero b) hnd
    · have hlt : n < b := by
        rcases Nat.lt_or_ge n b with h | h
        · exact h
        · exact absurd (by omega : n = b) (fun he => hnd (he ▸ dvd_refl b))
      simp [List.getLast?, Nat.mod_eq_of_lt hlt]
    · have hnd2 : ¬ b ∣ (n - b) := by
        intro hd
        have hdn : b ∣ n := by
          have := Nat.dvd_add hd (dvd_refl b)
          rwa [show (n - b) + b = n by omega] at this
        exact hnd hdn
      have hr : (batchSizesAux b fuel (n - b)).getLast? = some ((n - b) % b) :=
        ih (n - b) (by omega) hnd2
      have hm : (n - b) % b = n % b := by
        conv_rhs => rw [show n = (n - b) + b by omega]
        rw [Nat.add_mod_right]
      exact hm ▸ getLast?_cons_of_some b _ _ hr

theorem batchSizes_getLast (b : ℕ) (hb : 0 < b) :
    ∀ n, ¬ b ∣ n → (batchSizes b n).getLast? = some (n % b) := by
  intro n hnd
  rw [batchSizes, if_neg (by omega)]
  exact batchSizesAux_getLast b hb n n le_rfl hnd

theorem chunks_length (s : ℕ) (l : List ℕ) : (chunks s l).length = l.length := by
  induction l generalizing s with
  | nil => rfl
  | cons sz rest ih => simp [chunks, ih]

theorem chunks_flat (s : ℕ) (l : List ℕ) :
    (chunks s l).flatMap (fun p => List.range' p.1 p.2) = List.range' s l.sum := by
  induction l generalizing s with
  | nil => rfl
  | cons sz rest ih =>
    simp only [chunks, List.flatMap_cons, ih, List.sum_cons]
    rw [List.range'_append_1, Nat.add_comm]

/-- Claim C7: when batchSize does not evenly divide numFunctions, each full
pass consists of ceil(numFunctions / batchSize) batches, every data index is
visited exactly once per pass (the covered indices are exactly 0..n-1, each
once), and the last batch is a short batch of numFunctions mod batchSize
points that is processed, not dropped and not padded. -/
theorem c7_short_batch (n b : ℕ) (hb : 0 < b) (hnd : ¬ b ∣ n) :
    (passBatches n b).length = (n + b - 1) / b ∧
    coveredIndices n b = List.range n ∧
    (batchSizes b n).getLast? = some (n % b) ∧
    n % b ≠ 0 := by
  refine ⟨?_, ?_, batchSizes_getLast b hb n hnd, ?_⟩
  · rw [passBatches, chunks_length, batchSizes_length b hb]
  · rw [coveredIndices, passBatches, chunks_flat, batchSizes_sum b hb,
        List.range_eq_range']
  · intro h
    exact hnd (Nat.dvd_of_mod_eq_zero h)

/-- Witness for C7 at numFunctions = 10, batchSize = 4: three batches per
pass, of sizes 4, 4 and 2. -/
theorem c7_short_batch_witness :
    (0 < 4 ∧ ¬ (4 ∣ 10)) ∧
    batchSizes 4 10 = [4, 4, 2] ∧
    passBatches 10 4 = [(0, 4), (4, 4), (8, 2)] ∧
    ((passBatches 10 4).length = (10 + 4 - 1) / 4 ∧
     coveredIndices 10 4 = List.range 10 ∧
     (batchSizes 4 10).getLast? = some (10 % 4) ∧
     10 % 4 ≠ 0) :=
  ⟨⟨by decide, by decide⟩, by decide, by decide, c7_short_batch 10 4 (by decide) (by decide)⟩

/-- Claim C6: maxIterations counts individual data points processed, not
passes: the limit check compares the processed-point count against
maxIterations, each batch advances the count by the batch size, the loop
stops for the limit exactly once maxIterations points have been processed,
and maxIterations = 0 disables the limit entirely (never zero iterations). -/
theorem c6_max_iterations_points (sq : ℚ → ℚ) (cfg : SGDDriver) (f : Objective)
    (bs : List (ℕ × ℕ)) (st st' : RunState) :
    (∀ points, limitHit 0 points = false) ∧
    (∀ m points, limitHit m points = true ↔ (m ≠ 0 ∧ m ≤ points)) ∧
    (runBatches sq cfg f bs st = (st', none) →
      st'.points = st.points + (bs.map Prod.snd).sum) ∧
    (runBatches sq cfg f bs st = (st', some StopReason.limitReached) →
      cfg.maxIterations ≠ 0 ∧ cfg.maxIterations ≤ st'.points) := by
  refine ⟨?_, ?_, ?_, ?_⟩
  · intro points; simp [limitHit]
  · intro m points
    unfold limitHit
    split_ifs with h1 h2 <;> simp_all
  · induction bs generalizing st with
    | nil =>
      intro h
      simp only [runBatches] at h
      cases h
      simp
    | cons bhd btl ih =>
      intro h
      simp only [runBatches] at h
      by_cases hl : limitHit cfg.maxIterations st.points
      · simp [hl] at h
      · simp only [hl, if_false] at h
        cases hgr : f.gradient st.iterate bhd.1 bhd.2 with
        | error e => rw [hgr] at h; simp at h
        | ok grad =>
          rw [hgr] at h
          have h2 : st'.points = st.points + bhd.2 + (btl.map Prod.snd).sum := ih _ h
          simp only [List.map_cons, List.sum_cons]
          omega
  · induction bs generalizing st with
    | nil =>
      intro h
      simp only [runBatches] at h
      cases h
    | cons bhd btl ih =>
      intro h
      simp only [runBatches] at h
      by_cases hl : limitHit cfg.maxIterations st.points
      · simp only [hl, if_true] at h
        cases h
        unfold limitHit at hl
        split_ifs at hl with h1 h2
        exact ⟨h1, h2⟩
      · simp only [hl, if_false] at h
        cases hgr : f.gradient st.iterate bhd.1 bhd.2 with
        | error e => rw [hgr] at h; simp at h
        | ok grad =>
          rw [hgr] at h
          exact ih _ h

/-- Witness for C6 at concrete inputs: a driver with maxIterations = 5 and a
state that has already processed 7 points. -/
theorem c6_max_iterations_points_witness :
    limitHit 0 3 = false ∧
    (limitHit 5 7 = true ↔ ((5 : ℕ) ≠ 0 ∧ (5 : ℕ) ≤ 7)) ∧
    ((⟨[], ⟨[], [], 0⟩, 7, 0⟩ : RunState).points =
      (⟨[], ⟨[], [], 0⟩, 7, 0⟩ : RunState).points +
        (([] : List (ℕ × ℕ)).map Prod.snd).sum) ∧
    ((5 : ℕ) ≠ 0 ∧ (5 : ℕ) ≤ (⟨[], ⟨[], [], 0⟩, 7, 0⟩ : RunState).points) :=
  ⟨(c6_max_iterations_points id ⟨1, 2, 5, 1, false, true, ⟨1, 0, 0, 0, 0⟩⟩
      ⟨2, fun _ _ _ => Except.ok 0, fun _ _ _ => Except.ok []⟩ [] ⟨[], ⟨[], [], 0⟩, 7, 0⟩
      ⟨[], ⟨[], [], 0⟩, 7, 0⟩).1 3,
   (c6_max_iterations_points id ⟨1, 2, 5, 1, false, true, ⟨1, 0, 0, 0, 0⟩⟩
      ⟨2, fun _ _ _ => Except.ok 0, fun _ _ _ => Except.ok []⟩ [] ⟨[], ⟨[], [], 0⟩, 7, 0⟩
      ⟨[], ⟨[], [], 0⟩, 7, 0⟩).2.1 5 7,
   (c6_max_iterations_points id ⟨1, 2, 5, 1, false, true, ⟨1, 0, 0, 0, 0⟩⟩
      ⟨2, fun _ _ _ => Except.ok 0, fun _ _ _ => Except.ok []⟩ [] ⟨[], ⟨[], [], 0⟩, 7, 0⟩
      ⟨[], ⟨[], [], 0⟩, 7, 0⟩).2.2.1 rfl,
   (c6_max_iterations_points id ⟨1, 2, 5, 1, false, true, ⟨1, 0, 0, 0, 0⟩⟩
      ⟨2, fun _ _ _ => Except.ok 0, fun _ _ _ => Except.ok []⟩ [(0, 4)] ⟨[], ⟨[], [], 0⟩, 7, 0⟩
      ⟨[], ⟨[], [], 0⟩, 7, 0⟩).2.2.2 rfl⟩

/-- Claim C8: an error raised by the objective's gradient or evaluate function
during optimization is propagated to the caller unchanged and immediately
(no retry, remaining batches are not processed), and the iterate is left
exactly in the state reached after the last successfully applied update. -/
theorem c8_error_propagation :
    (∀ (sq : ℚ → ℚ) (cfg : SGDDriver) (f : Objective) (bs1 : List (ℕ × ℕ)) (b : ℕ × ℕ)
        (bs2 : List (ℕ × ℕ)) (st st' : RunState) (e : String),
      runBatches sq cfg f bs1 st = (st', none) →
      limitHit cfg.maxIterations st'.points = false →
      f.gradient st'.iterate b.1 b.2 = Except.error e →
      runBatches sq cfg f (bs1 ++ b :: bs2) st = (st', some (StopReason.failed e))) ∧
    (∀ (sq : ℚ → ℚ) (shuffler : ℕ → Objective → Objective) (cfg : SGDDriver) (fuel : ℕ)
        (f : Objective) (st st1 : RunState) (e : String),
      cfg.shuffle = false →
      runBatches sq cfg f (passBatches f.numFunctions cfg.batchSize) st = (st1, none) →
      f.evaluate st1.iterate 0 f.numFunctions = Except.error e →
      runPasses sq shuffler cfg (fuel + 1) f st = (st1, StopReason.failed e)) := by
  constructor
  · intro sq cfg f bs1
    induction bs1 with
    | nil =>
      intro b bs2 st st' e hpre hlim herr
      simp only [runBatches] at hpre
      obtain ⟨rfl, -⟩ : st = st' ∧ True := by
        refine ⟨?_, trivial⟩
        exact (Prod.mk.injEq _ _ _ _ ▸ hpre).1
      simp only [List.nil_append, runBatches, hlim, Bool.false_eq_true, if_false]
      rw [herr]
    | cons a rest ih =>
      intro b bs2 st st' e hpre hlim herr
      simp only [runBatches] at hpre
      by_cases hl : limitHit cfg.maxIterations st.points
      · simp [hl] at hpre
      · simp only [hl, Bool.false_eq_true, if_false] at hpre
        cases hgr : f.gradient st.iterate a.1 a.2 with
        | error e2 => rw [hgr] at hpre; simp at hpre
        | ok grad =>
          rw [hgr] at hpre
          simp only [List.cons_append, runBatches, hl, Bool.false_eq_true, if_false]
          rw [hgr]
          exact ih b bs2 _ st' e hpre hlim herr
  · intro sq shuffler cfg fuel f st st1 e hsh hrb heval
    simp only [runPasses, hsh, Bool.false_eq_true, if_false]
    rw [hrb]
    simp [heval]

/-- Witness for C8: an objective whose gradient always fails with "boom" and,
for the second part, an empty objective whose evaluate fails with "eval". -/
theorem c8_error_propagation_witness :
    (runBatches id ⟨1, 2, 0, 1, false, true, ⟨1, 0, 0, 0, 0⟩⟩
        ⟨4, fun _ _ _ => Except.ok 0, fun _ _ _ => Except.error "boom"⟩ []
        ⟨[5], ⟨[0], [0], 0⟩, 0, 0⟩ = (⟨[5], ⟨[0], [0], 0⟩, 0, 0⟩, none) ∧
     limitHit 0 0 = false ∧
     (⟨4, fun _ _ _ => Except.ok 0, fun _ _ _ => Except.error "boom"⟩ : Objective).gradient
        [5] 0 2 = Except.error "boom") ∧
    runBatches id ⟨1, 2, 0, 1, false, true, ⟨1, 0, 0, 0, 0⟩⟩
        ⟨4, fun _ _ _ => Except.ok 0, fun _ _ _ => Except.error "boom"⟩
        ([] ++ (0, 2) :: [(2, 2)]) ⟨[5], ⟨[0], [0], 0⟩, 0, 0⟩ =
      (⟨[5], ⟨[0], [0], 0⟩, 0, 0⟩, some (StopReason.failed "boom")) ∧
    runPasses id (fun _ g => g) ⟨1, 2, 0, 1, false, true, ⟨1, 0, 0, 0, 0⟩⟩ (3 + 1)
        ⟨0, fun _ _ _ => Except.error "eval", fun _ _ _ => Except.ok []⟩
        ⟨[5], ⟨[0], [0], 0⟩, 0, 0⟩ =
      (⟨[5], ⟨[0], [0], 0⟩, 0, 0⟩, StopReason.failed "eval") :=
  ⟨⟨rfl, rfl, rfl⟩,
   c8_error_propagation.1 id ⟨1, 2, 0, 1, false, true, ⟨1, 0, 0, 0, 0⟩⟩
     ⟨4, fun _ _ _ => Except.ok 0, fun _ _ _ => Except.error "boom"⟩ [] (0, 2) [(2, 2)]
     ⟨[5], ⟨[0], [0], 0⟩, 0, 0⟩ ⟨[5], ⟨[0], [0], 0⟩, 0, 0⟩ "boom" rfl rfl rfl,
   c8_error_propagation.2 id (fun _ g => g) ⟨1, 2, 0, 1, false, true, ⟨1, 0, 0, 0, 0⟩⟩ 3
     ⟨0, fun _ _ _ => Except.error "eval", fun _ _ _ => Except.ok []⟩
     ⟨[5], ⟨[0], [0], 0⟩, 0, 0⟩ ⟨[5], ⟨[0], [0], 0⟩, 0, 0⟩ "eval" rfl rfl rfl⟩

theorem SGDOptimize_policy_independent (sq : ℚ → ℚ) (shuffler : ℕ → Objective → Objective)
    (cfg : SGDDriver) (f : Objective) (iterate : List ℚ) (pol pol' : QHAdamState) (fuel : ℕ)
    (hrp : cfg.resetPolicy = true) :
    SGDOptimize sq shuffler cfg f iterate pol fuel =
      SGDOptimize sq shuffler cfg f iterate pol' fuel := by
  simp only [SGDOptimize, hrp, if_true]

/-- Claim C9: with shuffle = false, resetPolicy = true and a deterministic
objective, two consecutive Optimize calls on the same instance (the second
starting from the moment state left by the first) from the same starting
iterate produce identical final iterates. -/
theorem c9_determinism (sq : ℚ → ℚ) (shuffler : ℕ → Objective → Objective)
    (cfg : SGDDriver) (f : Objective) (iterate : List ℚ) (pol : QHAdamState) (fuel : ℕ)
    (hsh : cfg.shuffle = false) (hrp : cfg.resetPolicy = true) :
    (SGDOptimize sq shuffler cfg f iterate
        ((SGDOptimize sq shuffler cfg f iterate pol fuel).1.policy) fuel).1.iterate =
      (SGDOptimize sq shuffler cfg f iterate pol fuel).1.iterate := by
  rw [SGDOptimize_policy_independent sq shuffler cfg f iterate _ pol fuel hrp]

/-- Witness for C9 at a concrete configuration and objective. -/
theorem c9_determinism_witness :
    ((⟨1, 2, 5, 1, false, true, ⟨1, 0, 0, 0, 0⟩⟩ : SGDDriver).shuffle = false ∧
     (⟨1, 2, 5, 1, false, true, ⟨1, 0, 0, 0, 0⟩⟩ : SGDDriver).resetPolicy = true) ∧
    (SGDOptimize id (fun _ g => g) ⟨1, 2, 5, 1, false, true, ⟨1, 0, 0, 0, 0⟩⟩
        ⟨2, fun _ _ _ => Except.ok 0, fun _ _ _ => Except.ok [1, 1]⟩ [3, 4]
        ((SGDOptimize id (fun _ g => g) ⟨1, 2, 5, 1, false, true, ⟨1, 0, 0, 0, 0⟩⟩
            ⟨2, fun _ _ _ => Except.ok 0, fun _ _ _ => Except.ok [1, 1]⟩ [3, 4]
            ⟨[0, 0], [0, 0], 0⟩ 2).1.policy) 2).1.iterate =
      (SGDOptimize id (fun _ g => g) ⟨1, 2, 5, 1, false, true, ⟨1, 0, 0, 0, 0⟩⟩
          ⟨2, fun _ _ _ => Except.ok 0, fun _ _ _ => Except.ok [1, 1]⟩ [3, 4]
          ⟨[0, 0], [0, 0], 0⟩ 2).1.iterate :=
  ⟨⟨rfl, rfl⟩,
   c9_determinism id (fun _ g => g) ⟨1, 2, 5, 1, false, true, ⟨1, 0, 0, 0, 0⟩⟩
     ⟨2, fun _ _ _ => Except.ok 0, fun _ _ _ => Except.ok [1, 1]⟩ [3, 4]
     ⟨[0, 0], [0, 0], 0⟩ 2 rfl rfl⟩

/-- A world of independently addressed QHAdam instances, for the frame
property: an operation applied to the instance at index i. -/
def setAt (store : ℕ → QHAdam) (i : ℕ) (f : QHAdam → QHAdam) : ℕ → QHAdam :=
  fun j => if j = i then f (store j) else store j

/-- Claim C10: each QHAdam instance holds its whole optimizer state in its
single per-instance member, so applying any operation (a setter or the state
change of an Optimize call) to one instance leaves every value observable
through the getters and Optimize of any other instance unchanged. -/
theorem c10_instance_isolation (store : ℕ → QHAdam) (i j : ℕ) (f : QHAdam → QHAdam)
    (hij : j ≠ i) :
    setAt store i f j = store j ∧
    (setAt store i f j).StepSize = (store j).StepSize ∧
    (setAt store i f j).BatchSize = (store j).BatchSize ∧
    (setAt store i f j).V1 = (store j).V1 ∧
    (setAt store i f j).V2 = (store j).V2 ∧
    (setAt store i f j).Beta1 = (store j).Beta1 ∧
    (setAt store i f j).Beta2 = (store j).Beta2 ∧
    (setAt store i f j).Epsilon = (store j).Epsilon ∧
    (setAt store i f j).MaxIterations = (store j).MaxIterations ∧
    (setAt store i f j).Tolerance = (store j).Tolerance ∧
    (setAt store i f j).Shuffle = (store j).Shuffle ∧
    (setAt store i f j).ResetPolicy = (store j).ResetPolicy ∧
    (∀ (sq : ℚ → ℚ) (shuffler : ℕ → Objective → Objective) (fn : Objective)
        (iterate : List ℚ) (pol : QHAdamState) (fuel : ℕ),
      QHAdam.Optimize sq shuffler (setAt store i f j) fn iterate pol fuel =
        QHAdam.Optimize sq shuffler (store j) fn iterate pol fuel) := by
  have h : setAt store i f j = store j := by
    unfold setAt
    exact if_neg hij
  rw [h]
  exact ⟨rfl, rfl, rfl, rfl, rfl, rfl, rfl, rfl, rfl, rfl, rfl, rfl,
    fun _ _ _ _ _ _ => rfl⟩

/-- Witness for C10 at a concrete store and operation. -/
theorem c10_instance_isolation_witness :
    (1 : ℕ) ≠ 0 ∧
    setAt (fun _ => QHAdamDefault) 0 (fun q => q.SetStepSize 2) 1 = QHAdamDefault ∧
    (setAt (fun _ => QHAdamDefault) 0 (fun q => q.SetStepSize 2) 1).StepSize =
      QHAdamDefault.StepSize :=
  ⟨by decide,
   (c10_instance_isolation (fun _ => QHAdamDefault) 0 1 (fun q => q.SetStepSize 2)
     (by decide)).1,
   (c10_instance_isolation (fun _ => QHAdamDefault) 0 1 (fun q => q.SetStepSize 2)
     (by decide)).2.1⟩

end Ens
